import Mathlib

/-!
# Logic-gate simulator: shallow embedding of the evaluation core

This file embeds the simulation core of the logic-gate circuit editor
(`src/App.tsx`, the `useEffect` bracketed by the `// Logic simulation`
comment, together with the data declarations it reads) and proves the
frozen specification claims about it.

Embedding conventions:
* Presentation-only fields (`position`, display `name`, wire `id`) are
  dropped: the simulation never reads them.
* JavaScript field access that can throw a `TypeError`
  (`GATE_DIMENSIONS['CUSTOM'].inputs` when a CUSTOM gate's template is
  missing from the library) is modelled by `Option`: `none` is the thrown
  exception escaping the evaluation.
* `Array.prototype.map` callbacks read the *pre-pass* array (the variable
  is reassigned only after `map` returns), so each relaxation pass and
  each expander sweep resolves sources in the state that entered it; the
  embedding passes that read state explicitly.
* `JSON.stringify(a) !== JSON.stringify(b)` on the boolean port arrays is
  structural disequality on `Option (List Bool)` (`undefined` serialises
  differently from every array, matching `none ≠ some _`).
-/

namespace LogicSim

/-- `GateType` from the source: the five base kinds plus `CUSTOM`
(composite instances). -/
inductive GType where
  | INPUT
  | OUTPUT
  | AND
  | OR
  | NOT
  | CUSTOM
deriving DecidableEq, Repr

/-- One side of a `Wire`: `{ gateId, portIndex }`. -/
structure Endpoint where
  gateId : String
  portIndex : Nat
deriving DecidableEq, Repr

/-- `Wire` (the presentational `id` field is dropped; the engine filters
wires only by their endpoints). `src`/`dst` are the source's `from`/`to`
(`from` is a Lean keyword). -/
structure Wire where
  src : Endpoint
  dst : Endpoint
deriving DecidableEq, Repr

/-- `Gate`. `position` and `name` are presentation-only and dropped.
For CUSTOM gates the `customGateName`, `inputValues`, `outputValues`
fields are populated; they are `undefined` (`none`) otherwise. -/
structure Gate where
  id : String
  type : GType
  value : Bool
  customGateName : Option String := none
  inputValues : Option (List Bool) := none
  outputValues : Option (List Bool) := none
deriving DecidableEq, Repr

/-- `CustomGateTemplate`. Inner gates are stored as `Omit<Gate,'value'>`;
we reuse `Gate`, whose `value` field is overwritten with `false` at every
instantiation and never read before that, mirroring the omission.
`inputs`/`outputs` keep only each port declaration's `originalId` (the
optional display `name` is presentational). -/
structure Template where
  gates : List Gate
  wires : List Wire
  inputs : List String
  outputs : List String
deriving DecidableEq, Repr

/-- The library store `customGates`: a name-indexed table. JavaScript
object keys are unique; lookup is first-match on an association list. -/
abbrev Library := List (String × Template)

/-- A circuit snapshot: the `gates`/`wires` halves of `AppState` that the
simulation effect reads and rewrites. -/
structure Circuit where
  gates : List Gate
  wires : List Wire
deriving DecidableEq, Repr

/-- `customGates[name]`. -/
def lookupTemplate (lib : Library) (n : String) : Option Template :=
  (lib.find? (fun p => p.1 = n)).map Prod.snd

/-- The `inputs` column of `GATE_DIMENSIONS`. `GATE_DIMENSIONS` has no
`CUSTOM` row, so indexing it with `'CUSTOM'` yields `undefined` and the
subsequent `.inputs` access throws: `none`. -/
def baseInputs : GType → Option Nat
  | .INPUT => some 0
  | .OUTPUT => some 1
  | .AND => some 2
  | .OR => some 2
  | .NOT => some 1
  | .CUSTOM => none

/-- The declared input arity used by `runSimulation`
(`numInputs` local): a template's input-port count for a CUSTOM gate with
a present template, `GATE_DIMENSIONS[type].inputs` otherwise — which
throws (`none`) for a CUSTOM gate whose template is absent. -/
def numInputs (lib : Library) (g : Gate) : Option Nat :=
  if g.type = GType.CUSTOM then
    match g.customGateName.bind (lookupTemplate lib) with
    | some t => some t.inputs.length
    | none => none
  else baseInputs g.type

/-- Resolving one wire's driving value
(`fromGate.type === 'CUSTOM' ? (fromGate.outputValues?.[i] ?? false) :
fromGate.value`, `false` when the source gate is not found). -/
def sourceValue (gs : List Gate) (w : Wire) : Bool :=
  match gs.find? (fun fg => fg.id = w.src.gateId) with
  | none => false
  | some fg =>
    if fg.type = GType.CUSTOM then
      match fg.outputValues with
      | none => false
      | some l => l.getD w.src.portIndex false
    else fg.value

/-- The `inputValues` local of `runSimulation`: for each declared port
index, the first incoming wire at that index resolved against the
pass's read state, `false` when unwired. -/
def resolvedInputs (readState : List Gate) (inputWires : List Wire) (n : Nat) : List Bool :=
  (List.range n).map (fun i =>
    match inputWires.find? (fun w => w.dst.portIndex = i) with
    | none => false
    | some w => sourceValue readState w)

/-- The kind-specific value formula (`let newValue = false; if …`).
CUSTOM (and the unreachable INPUT) fall through to `false`. -/
def gateFormula (t : GType) (inputValues : List Bool) : Bool :=
  match t with
  | .AND => inputValues.all (fun v => v)
  | .OR => inputValues.any (fun v => v)
  | .NOT => if inputValues.length > 0 then !(inputValues.getD 0 false) else true
  | .OUTPUT => inputValues.getD 0 false
  | _ => false

/-- One gate's update inside a `runSimulation` pass. `readState` is the
array the `map` callback closes over (the pre-pass state). `none` models
the `TypeError` on a CUSTOM gate whose template is missing. -/
def stepGate (lib : Library) (wireList : List Wire) (readState : List Gate)
    (g : Gate) : Option Gate :=
  if g.type = GType.INPUT then some g else
  let inputWires := wireList.filter (fun w => w.dst.gateId = g.id)
  match numInputs lib g with
  | none => none
  | some n =>
    if g.type ≠ GType.OUTPUT ∧ inputWires.length < n then
      some { g with value := false }
    else
      some { g with value := gateFormula g.type (resolvedInputs readState inputWires n) }

/-- `List.map` with a callback that can throw: `none` as soon as any
element does. -/
def mapO : List α → (α → Option β) → Option (List β)
  | [], _ => some []
  | a :: as, f =>
    match f a, mapO as f with
    | some b, some bs => some (b :: bs)
    | _, _ => none

/-- One full pass of `runSimulation`'s `do`-loop body. -/
def stepPass (lib : Library) (wireList : List Wire) (gs : List Gate) :
    Option (List Gate) :=
  mapO gs (stepGate lib wireList gs)

/-- The `do … while (changed && iterations < MAX_ITERATIONS)` loop:
run one pass, stop when it changed nothing (the map returned only
value-identical gates) or the budget is spent, else continue on the new
state. The fuel argument counts the passes still allowed. -/
def runSimAux (lib : Library) (wireList : List Wire) : Nat → List Gate → Option (List Gate)
  | 0, gs => some gs
  | fuel + 1, gs =>
    match stepPass lib wireList gs with
    | none => none
    | some gs' => if gs' = gs ∨ fuel = 0 then some gs' else runSimAux lib wireList fuel gs'

/-- `MAX_ITERATIONS`. -/
def innerCap : Nat := 50

/-- `runSimulation(gateList, wireList)`: up to 50 relaxation passes. -/
def runSimulation (lib : Library) (gateList : List Gate) (wireList : List Wire) :
    Option (List Gate) :=
  runSimAux lib wireList innerCap gateList

/-- The template-input seeding (`internalGates.find(…)` followed by a
mutation of the found element): set the value of the *first* gate with
the given id, leave the list unchanged when none matches. -/
def setFirstValue : List Gate → String → Bool → List Gate
  | [], _, _ => []
  | g :: rest, gid, v =>
    if g.id = gid then { g with value := v } :: rest
    else g :: setFirstValue rest gid v

/-- `template.inputs.forEach((inputDef, i) => { … gate.value =
newInputValues[i] })`. -/
def seedInputs (igs : List Gate) (defs : List String) (vals : List Bool) : List Gate :=
  defs.enum.foldl (fun acc p => setFirstValue acc p.2 (vals.getD p.1 false)) igs

/-- The `newInputValues` local of the outer loop: each declared input
port of composite `g` resolved from the outer wiring against the round's
entry state (`false` if unwired). -/
def compositeInputs (wireList : List Wire) (tempGates : List Gate) (g : Gate)
    (t : Template) : List Bool :=
  (List.range t.inputs.length).map (fun i =>
    match wireList.find? (fun w => w.dst.gateId = g.id ∧ w.dst.portIndex = i) with
    | none => false
    | some w => sourceValue tempGates w)

/-- The `internalGates` local after seeding: the template's inner gates
instantiated fresh (`value: false`) with the inner INPUT gates set to the
resolved outer values. -/
def instantiateTemplate (t : Template) (vals : List Bool) : List Gate :=
  seedInputs (t.gates.map (fun tg => { tg with value := false })) t.inputs vals

/-- The `newOutputValues` local: the values of the inner OUTPUT gates
named by the template's output-port declarations, in declared order
(`false` when the named gate is not found). -/
def harvestOutputs (t : Template) (simulated : List Gate) : List Bool :=
  t.outputs.map (fun oid =>
    match simulated.find? (fun ig => ig.id = oid) with
    | none => false
    | some ig => ig.value)

/-- One composite gate's treatment in the outer loop's `map`: non-CUSTOM
gates and CUSTOM gates with a missing template pass through untouched;
otherwise the gate's live input values are resolved, the template's inner
graph is instantiated and simulated with the (inner) Fixpoint Engine, and
the inner OUTPUT gates are harvested. The boolean is this gate's
contribution to `changedInMainLoop`. -/
def sweepGate (lib : Library) (wireList : List Wire) (tempGates : List Gate)
    (g : Gate) : Option (Gate × Bool) :=
  if g.type ≠ GType.CUSTOM then some (g, false) else
  match g.customGateName.bind (lookupTemplate lib) with
  | none => some (g, false)
  | some t =>
    let newInputValues := compositeInputs wireList tempGates g t
    match runSimulation lib (instantiateTemplate t newInputValues) t.wires with
    | none => none
    | some simulated =>
      let newOutputValues := harvestOutputs t simulated
      some ({ g with inputValues := some newInputValues,
                     outputValues := some newOutputValues },
            decide (g.inputValues ≠ some newInputValues) ||
              decide (g.outputValues ≠ some newOutputValues))

/-- One expander sweep over the whole gate list (`tempGates.map(g =>
…)`), returning the new list and the round's `changedInMainLoop` flag. -/
def sweepAll (lib : Library) (wireList : List Wire) (tempGates : List Gate) :
    Option (List Gate × Bool) :=
  match mapO tempGates (sweepGate lib wireList tempGates) with
  | none => none
  | some l => some (l.map Prod.fst, l.any Prod.snd)

/-- The `do … while (changedInMainLoop && mainIterations < 10)` outer
loop: one expander sweep, then one flat engine run; repeat while the
sweep changed some composite's port arrays and rounds remain. -/
def outerLoop (lib : Library) (wireList : List Wire) : Nat → List Gate → Option (List Gate)
  | 0, gs => some gs
  | fuel + 1, gs =>
    match sweepAll lib wireList gs with
    | none => none
    | some (gs', ch) =>
      match runSimulation lib gs' wireList with
      | none => none
      | some gs'' =>
        if ch = true ∧ fuel ≠ 0 then outerLoop lib wireList fuel gs'' else some gs''

/-- The outer cap on `mainIterations`. -/
def outerCap : Nat := 10

/-- The whole simulation effect body as a function of the snapshot it
reads: `evaluate(circuit, library)`. `none` is a thrown `TypeError`
escaping the effect. -/
def evaluate (lib : Library) (c : Circuit) : Option (List Gate) :=
  outerLoop lib c.wires outerCap c.gates

/-! ## Well-formedness predicates used by the theorems -/

/-- Every CUSTOM gate in the list references a template present in the
library (the condition under which the flat engine does not throw on the
list). -/
def TemplatesOK (lib : Library) (gs : List Gate) : Prop :=
  ∀ g ∈ gs, g.type = GType.CUSTOM → (g.customGateName.bind (lookupTemplate lib)).isSome

instance (lib : Library) (gs : List Gate) : Decidable (TemplatesOK lib gs) := by
  unfold TemplatesOK; infer_instance

/-- Every template of the library itself only contains CUSTOM inner
gates whose templates are present (so instantiating any template yields a
list the engine does not throw on). -/
def LibOK (lib : Library) : Prop :=
  ∀ p ∈ lib, TemplatesOK lib p.2.gates

instance (lib : Library) : Decidable (LibOK lib) := by
  unfold LibOK; infer_instance

/-- The fan-in ≤ 1 invariant from the data model: each destination port
is the target of at most one wire. -/
def FanInOne (wireList : List Wire) : Prop :=
  ∀ w1 ∈ wireList, ∀ w2 ∈ wireList, w1.dst = w2.dst → w1 = w2

instance (wireList : List Wire) : Decidable (FanInOne wireList) := by
  unfold FanInOne; infer_instance

/-- Projection of an evaluation result onto one gate's composite output
ports. -/
def outputOf (r : Option (List Gate)) (gid : String) : Option (List Bool) :=
  r.bind (fun R => (R.find? (fun g => g.id = gid)).bind Gate.outputValues)

/-! ## Concrete circuits used by witnesses and counterexamples -/

/-- A lone NOT gate with no incoming wire (its stored value is stale
`true` so that the run shows the forcing). -/
def c3gate : Gate := { id := "n", type := GType.NOT, value := true }

/-- The circuit holding only `c3gate`. -/
def c3circuit : Circuit := { gates := [c3gate], wires := [] }

/-- A NOT gate wired from its own output to its own input, plus a CUSTOM
gate whose template name is absent from the (empty) library. -/
def c4badCircuit : Circuit :=
  { gates := [{ id := "n", type := GType.NOT, value := false },
              { id := "g", type := GType.CUSTOM, value := false, customGateName := some "ZZZ",
                inputValues := some [], outputValues := some [] }],
    wires := [{ src := { gateId := "n", portIndex := 0 }, dst := { gateId := "n", portIndex := 0 } }] }

/-- A NOT gate wired output-to-own-input: the cyclic topology named by
the claim. -/
def c4cycCircuit : Circuit :=
  { gates := [{ id := "n", type := GType.NOT, value := false }],
    wires := [{ src := { gateId := "n", portIndex := 0 }, dst := { gateId := "n", portIndex := 0 } }] }

/-- The identity template: one inner INPUT wired straight to one inner
OUTPUT. -/
def idT : Template :=
  { gates := [{ id := "ti", type := GType.INPUT, value := false },
              { id := "to", type := GType.OUTPUT, value := false }],
    wires := [{ src := { gateId := "ti", portIndex := 0 }, dst := { gateId := "to", portIndex := 0 } }],
    inputs := ["ti"], outputs := ["to"] }

/-- A library holding only the identity template under the name `T`. -/
def staleLib : Library := [("T", idT)]

/-- INPUT `a` (on) → NOT `n` → composite `c` (an instance of `T`), where
`n` still carries a stale value `true` and `c` caches port values
matching that stale reading. The graph is feedback-free. -/
def staleGates : List Gate :=
  [{ id := "a", type := GType.INPUT, value := true },
   { id := "n", type := GType.NOT, value := true },
   { id := "c", type := GType.CUSTOM, value := false, customGateName := some "T",
     inputValues := some [true], outputValues := some [true] }]

/-- The wires of the stale-composite circuit. -/
def staleWires : List Wire :=
  [{ src := { gateId := "a", portIndex := 0 }, dst := { gateId := "n", portIndex := 0 } },
   { src := { gateId := "n", portIndex := 0 }, dst := { gateId := "c", portIndex := 0 } }]

/-- The stale-composite circuit. -/
def staleCircuit : Circuit := { gates := staleGates, wires := staleWires }

/-- INPUT `a` (off) wired to NOT `n`: a feedback-free circuit whose
evaluation converges. -/
def c5wCircuit : Circuit :=
  { gates := [{ id := "a", type := GType.INPUT, value := false },
              { id := "n", type := GType.NOT, value := false }],
    wires := [{ src := { gateId := "a", portIndex := 0 }, dst := { gateId := "n", portIndex := 0 } }] }

/-- The converged snapshot `evaluate` produces for `c5wCircuit`. -/
def c5wResult : List Gate :=
  [{ id := "a", type := GType.INPUT, value := false },
   { id := "n", type := GType.NOT, value := true }]

/-- A CUSTOM gate referencing the absent template name `NAND`, with
cached (non-false) port values. -/
def c6gate : Gate :=
  { id := "g", type := GType.CUSTOM, value := false, customGateName := some "NAND",
    inputValues := some [true], outputValues := some [true] }

/-- The circuit holding only `c6gate`. -/
def c6circuit : Circuit := { gates := [c6gate], wires := [] }

/-- The `NAND` composite template of the claim: two inner INPUTs feeding
an AND whose output passes through a NOT to an OUTPUT. Port order is the
creation order of the declarations. -/
def nandT : Template :=
  { gates := [{ id := "i1", type := GType.INPUT, value := false },
              { id := "i2", type := GType.INPUT, value := false },
              { id := "a1", type := GType.AND, value := false },
              { id := "n1", type := GType.NOT, value := false },
              { id := "o1", type := GType.OUTPUT, value := false }],
    wires := [{ src := { gateId := "i1", portIndex := 0 }, dst := { gateId := "a1", portIndex := 0 } },
              { src := { gateId := "i2", portIndex := 0 }, dst := { gateId := "a1", portIndex := 1 } },
              { src := { gateId := "a1", portIndex := 0 }, dst := { gateId := "n1", portIndex := 0 } },
              { src := { gateId := "n1", portIndex := 0 }, dst := { gateId := "o1", portIndex := 0 } }],
    inputs := ["i1", "i2"], outputs := ["o1"] }

/-- A library holding the `NAND` template. -/
def nandLib : Library := [("NAND", nandT)]

/-- Two INPUT gates driving the two ports of a `NAND` instance `G`. -/
def nandCirc (a b : Bool) : Circuit :=
  { gates := [{ id := "A", type := GType.INPUT, value := a },
              { id := "B", type := GType.INPUT, value := b },
              { id := "G", type := GType.CUSTOM, value := false, customGateName := some "NAND",
                inputValues := some [false, false], outputValues := some [false] }],
    wires := [{ src := { gateId := "A", portIndex := 0 }, dst := { gateId := "G", portIndex := 0 } },
              { src := { gateId := "B", portIndex := 0 }, dst := { gateId := "G", portIndex := 1 } }] }

/-- A single stimulus gate, stable under evaluation. -/
def c8wGates : List Gate := [{ id := "i", type := GType.INPUT, value := true }]

/-- A CUSTOM gate with an absent template, fed by a wire whose source
gate id `ghost` names no gate. -/
def c10badCircuit : Circuit :=
  { gates := [{ id := "g", type := GType.CUSTOM, value := false, customGateName := some "M" }],
    wires := [{ src := { gateId := "ghost", portIndex := 0 }, dst := { gateId := "g", portIndex := 0 } }] }

/-- A wire whose source gate id `ghost` names no gate. -/
def ghostWire : Wire :=
  { src := { gateId := "ghost", portIndex := 0 }, dst := { gateId := "o", portIndex := 0 } }

/-- An OUTPUT gate driven only by the dangling `ghostWire`. -/
def c10wCircuit : Circuit :=
  { gates := [{ id := "o", type := GType.OUTPUT, value := true }], wires := [ghostWire] }

/-- An AND gate with only one of its two input ports wired (from an
INPUT that is on); its stored value is a stale `true`. -/
def c2wCircuit : Circuit :=
  { gates := [{ id := "p", type := GType.INPUT, value := true },
              { id := "x", type := GType.AND, value := true }],
    wires := [{ src := { gateId := "p", portIndex := 0 }, dst := { gateId := "x", portIndex := 0 } }] }

/-- A converged flat state: two on INPUTs driving an AND whose value is
already the conjunction. -/
def c1wState : List Gate :=
  [{ id := "p", type := GType.INPUT, value := true },
   { id := "q", type := GType.INPUT, value := true },
   { id := "x", type := GType.AND, value := true }]

/-- The wires of `c1wState`'s circuit. -/
def c1wWires : List Wire :=
  [{ src := { gateId := "p", portIndex := 0 }, dst := { gateId := "x", portIndex := 0 } },
   { src := { gateId := "q", portIndex := 0 }, dst := { gateId := "x", portIndex := 1 } }]

/-! ## Library lemmas about `mapO` and list search -/

theorem mapO_eq_some_mem {α β : Type _} {f : α → Option β} :
    ∀ {l : List α} {l' : List β}, mapO l f = some l' → ∀ b ∈ l', ∃ a ∈ l, f a = some b := by
  intro l
  induction l with
  | nil =>
    intro l' h b hb
    simp only [mapO, Option.some.injEq] at h
    subst h
    cases hb
  | cons a as ih =>
    intro l' h b hb
    simp only [mapO] at h
    cases hfa : f a with
    | none => rw [hfa] at h; cases h
    | some b0 =>
      cases hm : mapO as f with
      | none => rw [hfa, hm] at h; cases h
      | some bs =>
        rw [hfa, hm] at h
        cases h
        rcases List.mem_cons.mp hb with rfl | hb'
        · exact ⟨a, List.mem_cons_self a as, hfa⟩
        · obtain ⟨a', ha', hfa'⟩ := ih hm b hb'
          exact ⟨a', List.mem_cons_of_mem a ha', hfa'⟩

theorem mapO_fix {α : Type _} {f : α → Option α} :
    ∀ {l : List α}, mapO l f = some l → ∀ a ∈ l, f a = some a := by
  intro l
  induction l with
  | nil => intro _ a ha; cases ha
  | cons x xs ih =>
    intro h a ha
    simp only [mapO] at h
    cases hfx : f x with
    | none => rw [hfx] at h; cases h
    | some b0 =>
      cases hm : mapO xs f with
      | none => rw [hfx, hm] at h; cases h
      | some bs =>
        rw [hfx, hm] at h
        have h' : b0 = x ∧ bs = xs := by
          have := Option.some.inj h
          exact ⟨(List.cons.inj this).1, (List.cons.inj this).2⟩
        obtain ⟨rfl, rfl⟩ := h'
        rcases List.mem_cons.mp ha with rfl | ha'
        · exact hfx
        · exact ih hm a ha'

theorem mapO_none_of_mem {α β : Type _} {f : α → Option β} {a : α} :
    ∀ {l : List α}, a ∈ l → f a = none → mapO l f = none := by
  intro l
  induction l with
  | nil => intro ha; cases ha
  | cons x xs ih =>
    intro ha hfa
    rcases List.mem_cons.mp ha with rfl | ha'
    · simp [mapO, hfa]
    · simp only [mapO, ih ha' hfa]
      cases f x <;> rfl

theorem mapO_mem_some {α β : Type _} {f : α → Option β} {a : α} {b : β} :
    ∀ {l : List α} {l' : List β}, mapO l f = some l' → a ∈ l → f a = some b → b ∈ l' := by
  intro l
  induction l with
  | nil => intro l' _ ha; cases ha
  | cons x xs ih =>
    intro l' h ha hfa
    simp only [mapO] at h
    cases hfx : f x with
    | none => rw [hfx] at h; cases h
    | some b0 =>
      cases hm : mapO xs f with
      | none => rw [hfx, hm] at h; cases h
      | some bs =>
        rw [hfx, hm] at h
        cases h
        rcases List.mem_cons.mp ha with rfl | ha'
        · rw [hfa] at hfx
          exact (Option.some.inj hfx) ▸ List.mem_cons_self b0 bs
        · exact List.mem_cons_of_mem b0 (ih hm ha' hfa)

theorem mapO_total {α β : Type _} {f : α → Option β} :
    ∀ {l : List α}, (∀ a ∈ l, ∃ b, f a = some b) →
      ∃ l', mapO l f = some l' ∧ l'.length = l.length := by
  intro l
  induction l with
  | nil => intro _; exact ⟨[], rfl, rfl⟩
  | cons x xs ih =>
    intro h
    obtain ⟨b, hb⟩ := h x (List.mem_cons_self x xs)
    obtain ⟨l', hl', hlen⟩ := ih (fun a ha => h a (List.mem_cons_of_mem x ha))
    refine ⟨b :: l', ?_, by simpa using hlen⟩
    simp [mapO, hb, hl']

theorem find?_eq_some_of_unique {α : Type _} {p : α → Bool} {a : α} :
    ∀ {l : List α}, a ∈ l → p a = true → (∀ x ∈ l, p x = true → x = a) →
      l.find? p = some a := by
  intro l
  induction l with
  | nil => intro ha; cases ha
  | cons x xs ih =>
    intro ha hpa huniq
    by_cases hpx : p x = true
    · rw [List.find?_cons_of_pos _ hpx]
      rw [huniq x (List.mem_cons_self x xs) hpx]
    · rw [List.find?_cons_of_neg _ hpx]
      have hax : a ≠ x := fun h => hpx (h ▸ hpa)
      have ha' : a ∈ xs := by
        rcases List.mem_cons.mp ha with rfl | ha'
        · exact absurd rfl hax
        · exact ha'
      exact ih ha' hpa (fun y hy hpy => huniq y (List.mem_cons_of_mem x hy) hpy)

theorem two_le_length_of_mem {α : Type _} {a b : α} :
    ∀ {l : List α}, a ∈ l → b ∈ l → a ≠ b → 2 ≤ l.length := by
  intro l
  induction l with
  | nil => intro ha; cases ha
  | cons x xs ih =>
    intro ha hb hne
    rcases List.mem_cons.mp ha with rfl | ha'
    · rcases List.mem_cons.mp hb with rfl | hb'
      · exact absurd rfl hne
      · have := List.length_pos_of_mem hb'
        simp only [List.length_cons]
        omega
    · have := List.length_pos_of_mem ha'
      simp only [List.length_cons]
      omega

/-! ## Facts about one gate's update -/

theorem numInputs_base {lib : Library} {g : Gate} (h : g.type ≠ GType.CUSTOM) :
    numInputs lib g = baseInputs g.type := by
  simp [numInputs, h]

theorem numInputs_congr {lib : Library} {g g' : Gate} (ht : g'.type = g.type)
    (hc : g'.customGateName = g.customGateName) : numInputs lib g' = numInputs lib g := by
  simp [numInputs, ht, hc]

theorem numInputs_isSome {lib : Library} {g : Gate}
    (h : g.type = GType.CUSTOM → (g.customGateName.bind (lookupTemplate lib)).isSome) :
    ∃ n, numInputs lib g = some n := by
  by_cases hc : g.type = GType.CUSTOM
  · have hs := h hc
    unfold numInputs
    rw [if_pos hc]
    cases hl : g.customGateName.bind (lookupTemplate lib) with
    | none => rw [hl] at hs; cases hs
    | some t => exact ⟨t.inputs.length, rfl⟩
  · rw [numInputs_base hc]
    cases ht : g.type with
    | CUSTOM => exact absurd ht hc
    | _ => exact ⟨_, rfl⟩

theorem value_eq_of_update_eq {g : Gate} {v : Bool}
    (h : ({ g with value := v } : Gate) = g) : g.value = v := by
  have := congrArg Gate.value h
  simpa using this.symm

theorem stepGate_fields {lib : Library} {wireList : List Wire} {readState : List Gate}
    {g g' : Gate} (h : stepGate lib wireList readState g = some g') :
    g'.id = g.id ∧ g'.type = g.type ∧ g'.customGateName = g.customGateName ∧
      g'.inputValues = g.inputValues ∧ g'.outputValues = g.outputValues := by
  simp only [stepGate] at h
  split at h
  · cases h; exact ⟨rfl, rfl, rfl, rfl, rfl⟩
  · split at h
    · cases h
    · split at h
      · cases h; exact ⟨rfl, rfl, rfl, rfl, rfl⟩
      · cases h; exact ⟨rfl, rfl, rfl, rfl, rfl⟩

theorem stepGate_isSome {lib : Library} (wireList : List Wire) (readState : List Gate)
    {g : Gate} (h : g.type = GType.CUSTOM → (g.customGateName.bind (lookupTemplate lib)).isSome) :
    ∃ g', stepGate lib wireList readState g = some g' := by
  obtain ⟨n, hn⟩ := numInputs_isSome h
  by_cases hi : g.type = GType.INPUT
  · exact ⟨g, by simp [stepGate, hi]⟩
  · simp only [stepGate, if_neg hi, hn]
    split
    · exact ⟨_, rfl⟩
    · exact ⟨_, rfl⟩

theorem stepGate_custom_value {lib : Library} {wireList : List Wire} {readState : List Gate}
    {g g' : Gate} (hty : g.type = GType.CUSTOM)
    (h : stepGate lib wireList readState g = some g') : g'.value = false := by
  have hi : ¬ g.type = GType.INPUT := by simp [hty]
  simp only [stepGate, if_neg hi] at h
  split at h
  · cases h
  · split at h
    · cases h; rfl
    · cases h; simp [gateFormula, hty]

theorem stepGate_formula {lib : Library} {wireList : List Wire} {readState : List Gate}
    {g : Gate} {n : Nat}
    (hi : g.type ≠ GType.INPUT) (hn : numInputs lib g = some n)
    (hnu : ¬(g.type ≠ GType.OUTPUT ∧
        (wireList.filter (fun w => w.dst.gateId = g.id)).length < n)) :
    stepGate lib wireList readState g =
      some { g with
        value := gateFormula g.type
          (resolvedInputs readState (wireList.filter (fun w => w.dst.gateId = g.id)) n) } := by
  simp only [stepGate, if_neg hi, hn, if_neg hnu]

theorem stepGate_underwired {lib : Library} {wireList : List Wire} {readState : List Gate}
    {g : Gate} {n : Nat}
    (hi : g.type ≠ GType.INPUT) (ho : g.type ≠ GType.OUTPUT)
    (hn : numInputs lib g = some n)
    (hw : (wireList.filter (fun w => w.dst.gateId = g.id)).length < n) :
    stepGate lib wireList readState g = some { g with value := false } := by
  simp only [stepGate, if_neg hi, hn, if_pos (And.intro ho hw)]

/-! ## Totality and preservation through the engine loops -/

theorem stepPass_some {lib : Library} (wireList : List Wire) {gs : List Gate}
    (h : TemplatesOK lib gs) :
    ∃ gs', stepPass lib wireList gs = some gs' ∧ gs'.length = gs.length ∧
      TemplatesOK lib gs' := by
  obtain ⟨gs', h1, h2⟩ := mapO_total (fun g hg => stepGate_isSome wireList gs (h g hg))
  refine ⟨gs', h1, h2, ?_⟩
  intro g' hg' hty'
  obtain ⟨g, hg, hstep⟩ := mapO_eq_some_mem h1 g' hg'
  obtain ⟨-, htype, hname, -, -⟩ := stepGate_fields hstep
  have : g.type = GType.CUSTOM := htype ▸ hty'
  have := h g hg this
  rw [hname]
  exact this

theorem runSimAux_some {lib : Library} {wireList : List Wire} :
    ∀ (fuel : Nat) {gs : List Gate}, TemplatesOK lib gs →
      ∃ R, runSimAux lib wireList fuel gs = some R ∧ R.length = gs.length ∧
        TemplatesOK lib R := by
  intro fuel
  induction fuel with
  | zero => intro gs h; exact ⟨gs, rfl, rfl, h⟩
  | succ k ih =>
    intro gs h
    obtain ⟨gs', h1, h2, h3⟩ := stepPass_some wireList h
    by_cases hc : gs' = gs ∨ k = 0
    · refine ⟨gs', ?_, h2, h3⟩
      simp only [runSimAux, h1]
      rw [if_pos hc]
    · obtain ⟨R, hR1, hR2, hR3⟩ := ih h3
      refine ⟨R, ?_, by rw [hR2, h2], hR3⟩
      simp only [runSimAux, h1]
      rw [if_neg hc]
      exact hR1

theorem runSimulation_some {lib : Library} {gs : List Gate} (wireList : List Wire)
    (h : TemplatesOK lib gs) :
    ∃ R, runSimulation lib gs wireList = some R ∧ R.length = gs.length ∧
      TemplatesOK lib R :=
  runSimAux_some innerCap h

theorem runSimAux_succ (lib : Library) (wireList : List Wire) (fuel : Nat) (gs : List Gate) :
    runSimAux lib wireList (fuel + 1) gs =
      match stepPass lib wireList gs with
      | none => none
      | some gs' =>
        if gs' = gs ∨ fuel = 0 then some gs' else runSimAux lib wireList fuel gs' := by
  rfl

theorem outerLoop_succ (lib : Library) (wireList : List Wire) (fuel : Nat) (gs : List Gate) :
    outerLoop lib wireList (fuel + 1) gs =
      match sweepAll lib wireList gs with
      | none => none
      | some (gs', ch) =>
        match runSimulation lib gs' wireList with
        | none => none
        | some gs'' =>
          if ch = true ∧ fuel ≠ 0 then outerLoop lib wireList fuel gs'' else some gs'' := by
  rfl

theorem runSimAux_pass {lib : Library} {wireList : List Wire} :
    ∀ (fuel : Nat) {gs R : List Gate},
      runSimAux lib wireList (fuel + 1) gs = some R →
      ∃ gs₀, stepPass lib wireList gs₀ = some R := by
  intro fuel
  induction fuel with
  | zero =>
    intro gs R h
    rw [runSimAux_succ] at h
    cases hsp : stepPass lib wireList gs with
    | none => simp only [hsp] at h; cases h
    | some gs' =>
      simp only [hsp] at h
      split at h
      · cases h; exact ⟨gs, hsp⟩
      · simp only [runSimAux] at h
        cases h; exact ⟨gs, hsp⟩
  | succ k ih =>
    intro gs R h
    rw [runSimAux_succ] at h
    cases hsp : stepPass lib wireList gs with
    | none => simp only [hsp] at h; cases h
    | some gs' =>
      simp only [hsp] at h
      split at h
      · cases h; exact ⟨gs, hsp⟩
      · exact ih h

theorem runSimulation_pass {lib : Library} {gs : List Gate} {wireList : List Wire}
    {R : List Gate} (h : runSimulation lib gs wireList = some R) :
    ∃ gs₀, stepPass lib wireList gs₀ = some R :=
  runSimAux_pass 49 h

theorem outerLoop_runSim {lib : Library} {wireList : List Wire} :
    ∀ (fuel : Nat) {gs R : List Gate},
      outerLoop lib wireList (fuel + 1) gs = some R →
      ∃ gs₁, runSimulation lib gs₁ wireList = some R := by
  intro fuel
  induction fuel with
  | zero =>
    intro gs R h
    rw [outerLoop_succ] at h
    cases hsw : sweepAll lib wireList gs with
    | none => simp only [hsw] at h; cases h
    | some pr =>
      obtain ⟨gs', ch⟩ := pr
      simp only [hsw] at h
      cases hrs : runSimulation lib gs' wireList with
      | none => simp only [hrs] at h; cases h
      | some gs'' =>
        simp only [hrs] at h
        split at h
        · simp only [outerLoop] at h
          cases h; exact ⟨gs', hrs⟩
        · cases h; exact ⟨gs', hrs⟩
  | succ k ih =>
    intro gs R h
    rw [outerLoop_succ] at h
    cases hsw : sweepAll lib wireList gs with
    | none => simp only [hsw] at h; cases h
    | some pr =>
      obtain ⟨gs', ch⟩ := pr
      simp only [hsw] at h
      cases hrs : runSimulation lib gs' wireList with
      | none => simp only [hrs] at h; cases h
      | some gs'' =>
        simp only [hrs] at h
        split at h
        · exact ih h
        · cases h; exact ⟨gs', hrs⟩

theorem evaluate_pass {lib : Library} {c : Circuit} {R : List Gate}
    (h : evaluate lib c = some R) :
    ∃ gs₀, stepPass lib c.wires gs₀ = some R := by
  obtain ⟨gs₁, h1⟩ := outerLoop_runSim 9 h
  exact runSimulation_pass h1

/-! ## The expander sweep: totality and preservation -/

theorem templatesOK_of_types {lib : Library} {l l' : List Gate}
    (hmem : ∀ g' ∈ l', ∃ g ∈ l, g'.type = g.type ∧ g'.customGateName = g.customGateName)
    (h : TemplatesOK lib l) : TemplatesOK lib l' := by
  intro g' hg' hty
  obtain ⟨g, hg, h1, h2⟩ := hmem g' hg'
  rw [h2]
  exact h g hg (h1.symm.trans hty)

theorem setFirstValue_types {gid : String} {v : Bool} :
    ∀ {l : List Gate}, ∀ g' ∈ setFirstValue l gid v,
      ∃ g ∈ l, g'.type = g.type ∧ g'.customGateName = g.customGateName := by
  intro l
  induction l with
  | nil => intro g' h; cases h
  | cons x xs ih =>
    intro g' h
    simp only [setFirstValue] at h
    by_cases hx : x.id = gid
    · rw [if_pos hx] at h
      rcases List.mem_cons.mp h with rfl | h'
      · exact ⟨x, List.mem_cons_self x xs, rfl, rfl⟩
      · exact ⟨g', List.mem_cons_of_mem x h', rfl, rfl⟩
    · rw [if_neg hx] at h
      rcases List.mem_cons.mp h with rfl | h'
      · exact ⟨g', List.mem_cons_self g' xs, rfl, rfl⟩
      · obtain ⟨g, hg, h1, h2⟩ := ih g' h'
        exact ⟨g, List.mem_cons_of_mem x hg, h1, h2⟩

theorem seedInputs_types {defs : List String} {vals : List Bool} :
    ∀ {l : List Gate}, ∀ g' ∈ seedInputs l defs vals,
      ∃ g ∈ l, g'.type = g.type ∧ g'.customGateName = g.customGateName := by
  unfold seedInputs
  generalize defs.enum = ps
  induction ps with
  | nil => intro l g' h; exact ⟨g', by simpa using h, rfl, rfl⟩
  | cons p ps ih =>
    intro l g' h
    simp only [List.foldl_cons] at h
    obtain ⟨g1, hg1, e1, e2⟩ := ih g' h
    obtain ⟨g, hg, f1, f2⟩ := setFirstValue_types g1 hg1
    exact ⟨g, hg, e1.trans f1, e2.trans f2⟩

theorem instantiateTemplate_types {t : Template} {vals : List Bool} :
    ∀ g' ∈ instantiateTemplate t vals,
      ∃ g ∈ t.gates, g'.type = g.type ∧ g'.customGateName = g.customGateName := by
  intro g' h
  obtain ⟨g1, hg1, e1, e2⟩ := seedInputs_types g' h
  obtain ⟨g, hg, rfl⟩ := List.mem_map.mp hg1
  exact ⟨g, hg, e1, e2⟩

theorem lookupTemplate_templatesOK {lib : Library} {n : String} {t : Template}
    (hlib : LibOK lib) (h : lookupTemplate lib n = some t) : TemplatesOK lib t.gates := by
  unfold lookupTemplate at h
  cases hf : lib.find? (fun p => p.1 = n) with
  | none => rw [hf] at h; cases h
  | some p =>
    rw [hf] at h
    cases h
    exact hlib p (List.mem_of_find?_eq_some hf)

theorem bind_lookup_templatesOK {lib : Library} {g : Gate} {t : Template}
    (hlib : LibOK lib) (h : g.customGateName.bind (lookupTemplate lib) = some t) :
    TemplatesOK lib t.gates := by
  cases hname : g.customGateName with
  | none => rw [hname] at h; cases h
  | some n =>
    rw [hname] at h
    simp only [Option.bind] at h
    exact lookupTemplate_templatesOK hlib h

theorem sweepGate_fields {lib : Library} {wireList : List Wire} {tempGates : List Gate}
    {g : Gate} {r : Gate × Bool} (h : sweepGate lib wireList tempGates g = some r) :
    r.1.id = g.id ∧ r.1.type = g.type ∧ r.1.customGateName = g.customGateName := by
  simp only [sweepGate] at h
  split at h
  · cases h; exact ⟨rfl, rfl, rfl⟩
  · split at h
    · cases h; exact ⟨rfl, rfl, rfl⟩
    · split at h
      · cases h
      · cases h; exact ⟨rfl, rfl, rfl⟩

theorem sweepGate_isSome (lib : Library) (wireList : List Wire) (tempGates : List Gate)
    (g : Gate) (hlib : LibOK lib) :
    ∃ r, sweepGate lib wireList tempGates g = some r := by
  by_cases hc : g.type ≠ GType.CUSTOM
  · exact ⟨(g, false), by simp [sweepGate, hc]⟩
  · cases ht : g.customGateName.bind (lookupTemplate lib) with
    | none => exact ⟨(g, false), by simp [sweepGate, if_neg hc, ht]⟩
    | some t =>
      have hok : TemplatesOK lib
          (instantiateTemplate t (compositeInputs wireList tempGates g t)) :=
        templatesOK_of_types instantiateTemplate_types (bind_lookup_templatesOK hlib ht)
      obtain ⟨R, hR, -, -⟩ := runSimulation_some t.wires hok
      have hs : (sweepGate lib wireList tempGates g).isSome := by
        simp only [sweepGate, if_neg hc, ht, hR]
        rfl
      exact Option.isSome_iff_exists.mp hs

theorem sweepAll_some {lib : Library} (wireList : List Wire) {gs : List Gate}
    (hlib : LibOK lib) (h : TemplatesOK lib gs) :
    ∃ gs' ch, sweepAll lib wireList gs = some (gs', ch) ∧ gs'.length = gs.length ∧
      TemplatesOK lib gs' := by
  have htot : ∀ g ∈ gs, ∃ r, sweepGate lib wireList gs g = some r :=
    fun g _ => sweepGate_isSome lib wireList gs g hlib
  obtain ⟨l, hl, hlen⟩ := mapO_total htot
  refine ⟨l.map Prod.fst, l.any Prod.snd, ?_, by simp [hlen], ?_⟩
  · simp [sweepAll, hl]
  · intro g' hg' hty
    obtain ⟨r, hr, rfl⟩ := List.mem_map.mp hg'
    obtain ⟨a, ha, hfa⟩ := mapO_eq_some_mem hl r hr
    obtain ⟨-, htype, hname⟩ := sweepGate_fields hfa
    rw [hname]
    exact h a ha (htype.symm.trans hty)

theorem outerLoop_some {lib : Library} (wireList : List Wire) (hlib : LibOK lib) :
    ∀ (fuel : Nat) {gs : List Gate}, TemplatesOK lib gs →
      ∃ R, outerLoop lib wireList fuel gs = some R ∧ R.length = gs.length ∧
        TemplatesOK lib R := by
  intro fuel
  induction fuel with
  | zero => intro gs h; exact ⟨gs, rfl, rfl, h⟩
  | succ k ih =>
    intro gs h
    obtain ⟨gs', ch, h1, h2, h3⟩ := sweepAll_some wireList hlib h
    obtain ⟨gs'', h4, h5, h6⟩ := runSimulation_some wireList h3
    by_cases hc : ch = true ∧ k ≠ 0
    · obtain ⟨R, hR1, hR2, hR3⟩ := ih h6
      refine ⟨R, ?_, by rw [hR2, h5, h2], hR3⟩
      rw [outerLoop_succ]
      simp only [h1, h4]
      rw [if_pos hc]
      exact hR1
    · refine ⟨gs'', ?_, by rw [h5, h2], h6⟩
      rw [outerLoop_succ]
      simp only [h1, h4]
      rw [if_neg hc]

/-! ## A sweep that reports no change leaves the state untouched -/

theorem sweepGate_unchanged {lib : Library} {wireList : List Wire} {tempGates : List Gate}
    {g g' : Gate} (h : sweepGate lib wireList tempGates g = some (g', false)) : g' = g := by
  simp only [sweepGate] at h
  split at h
  · cases h; rfl
  · split at h
    · cases h; rfl
    · split at h
      · cases h
      · have h1 := Option.some.inj h
        rw [Prod.mk.injEq] at h1
        obtain ⟨ha, hb⟩ := h1
        have hb' := Bool.or_eq_false_iff.mp hb
        have e1 := not_not.mp (of_decide_eq_false hb'.1)
        have e2 := not_not.mp (of_decide_eq_false hb'.2)
        rw [← ha, ← e1, ← e2]

theorem sweep_list_unchanged {lib : Library} {wireList : List Wire} {rs : List Gate} :
    ∀ {gs : List Gate} {l : List (Gate × Bool)},
      mapO gs (sweepGate lib wireList rs) = some l → l.any Prod.snd = false →
      List.map Prod.fst l = gs := by
  intro gs
  induction gs with
  | nil =>
    intro l h hany
    simp only [mapO, Option.some.injEq] at h
    subst h
    rfl
  | cons g gsT ih =>
    intro l h hany
    simp only [mapO] at h
    cases hfg : sweepGate lib wireList rs g with
    | none => rw [hfg] at h; cases h
    | some r =>
      cases hm : mapO gsT (sweepGate lib wireList rs) with
      | none => rw [hfg, hm] at h; cases h
      | some rest =>
        rw [hfg, hm] at h
        cases h
        simp only [List.any_cons, Bool.or_eq_false_iff] at hany
        obtain ⟨hr2, hrest⟩ := hany
        have hre : r = (r.1, false) := by rw [← hr2]
        rw [hre] at hfg
        simp only [List.map_cons]
        rw [sweepGate_unchanged hfg, ih hm hrest]

theorem sweepAll_unchanged {lib : Library} {wireList : List Wire} {gs gs' : List Gate}
    (h : sweepAll lib wireList gs = some (gs', false)) : gs' = gs := by
  simp only [sweepAll] at h
  cases hm : mapO gs (sweepGate lib wireList gs) with
  | none => simp only [hm] at h; cases h
  | some l =>
    simp only [hm, Option.some.injEq, Prod.mk.injEq] at h
    obtain ⟨h1, h2⟩ := h
    rw [← h1]
    exact sweep_list_unchanged hm h2

/-! ## Resolving wired and unwired ports -/

theorem resolve_wired {wireList : List Wire} {g : Gate} {w : Wire} {i : Nat}
    (hfan : FanInOne wireList) (hw : w ∈ wireList)
    (hdst : w.dst = { gateId := g.id, portIndex := i }) :
    (wireList.filter (fun x => x.dst.gateId = g.id)).find?
      (fun x => x.dst.portIndex = i) = some w := by
  apply find?_eq_some_of_unique
  · exact List.mem_filter.mpr ⟨hw, by simp [hdst]⟩
  · simp [hdst]
  · intro x hx hpx
    have hx1 := (List.mem_filter.mp hx).1
    have hx2 : x.dst.gateId = g.id := by
      have := (List.mem_filter.mp hx).2
      simpa using this
    have hpx' : x.dst.portIndex = i := by simpa using hpx
    apply hfan x hx1 w hw
    rw [hdst]
    calc x.dst = { gateId := x.dst.gateId, portIndex := x.dst.portIndex } := rfl
      _ = { gateId := g.id, portIndex := i } := by rw [hx2, hpx']

theorem eval_underwired_false {lib : Library} {c : Circuit} {R : List Gate} {g : Gate}
    {n : Nat} (hev : evaluate lib c = some R) (hg : g ∈ R)
    (hi : g.type ≠ GType.INPUT) (ho : g.type ≠ GType.OUTPUT)
    (hn : numInputs lib g = some n)
    (hw : (c.wires.filter (fun w => w.dst.gateId = g.id)).length < n) :
    g.value = false := by
  obtain ⟨gs₀, hsp⟩ := evaluate_pass hev
  obtain ⟨g₀, hg₀, hstep⟩ := mapO_eq_some_mem hsp g hg
  obtain ⟨hid, htype, hname, -, -⟩ := stepGate_fields hstep
  have hn₀ : numInputs lib g₀ = some n := by
    rw [numInputs_congr htype hname] at hn
    exact hn
  have hi₀ : g₀.type ≠ GType.INPUT := by rw [← htype]; exact hi
  have ho₀ : g₀.type ≠ GType.OUTPUT := by rw [← htype]; exact ho
  have hw₀ : (c.wires.filter (fun w => w.dst.gateId = g₀.id)).length < n := by
    rw [← hid]; exact hw
  rw [stepGate_underwired hi₀ ho₀ hn₀ hw₀] at hstep
  have he := Option.some.inj hstep
  rw [← he]

/-! ## The claims -/

/-- C1: in a state the flat fixpoint evaluation has stabilised on (a
fixpoint of the engine's pass, which is how `runSimulation` terminates
short of budget exhaustion), under the fan-in ≤ 1 precondition: every
AND gate with both declared input ports wired has the conjunction of its
two resolved input values, every such OR gate their disjunction, every
wired NOT gate the negation of its input-0 value; an OUTPUT gate mirrors
its sole driver and is false when unwired. -/
theorem c1_fixpoint_truth_tables (lib : Library) (wireList : List Wire) (R : List Gate)
    (hfix : stepPass lib wireList R = some R) (hfan : FanInOne wireList) :
    (∀ g ∈ R, g.type = GType.AND → ∀ w0 ∈ wireList, ∀ w1 ∈ wireList,
        w0.dst = { gateId := g.id, portIndex := 0 } →
        w1.dst = { gateId := g.id, portIndex := 1 } →
        g.value = (sourceValue R w0 && sourceValue R w1)) ∧
    (∀ g ∈ R, g.type = GType.OR → ∀ w0 ∈ wireList, ∀ w1 ∈ wireList,
        w0.dst = { gateId := g.id, portIndex := 0 } →
        w1.dst = { gateId := g.id, portIndex := 1 } →
        g.value = (sourceValue R w0 || sourceValue R w1)) ∧
    (∀ g ∈ R, g.type = GType.NOT → ∀ w0 ∈ wireList,
        w0.dst = { gateId := g.id, portIndex := 0 } →
        g.value = !(sourceValue R w0)) ∧
    (∀ g ∈ R, g.type = GType.OUTPUT → ∀ w0 ∈ wireList,
        w0.dst = { gateId := g.id, portIndex := 0 } →
        g.value = sourceValue R w0) ∧
    (∀ g ∈ R, g.type = GType.OUTPUT →
        (∀ w ∈ wireList, w.dst ≠ { gateId := g.id, portIndex := 0 }) →
        g.value = false) := by
  refine ⟨?_, ?_, ?_, ?_, ?_⟩
  · intro g hg hty w0 hw0 w1 hw1 hd0 hd1
    have hne : w0 ≠ w1 := by
      intro he
      rw [he, hd1] at hd0
      have := congrArg Endpoint.portIndex hd0
      simp at this
    have hmem0 : w0 ∈ wireList.filter (fun w => w.dst.gateId = g.id) :=
      List.mem_filter.mpr ⟨hw0, by simp [hd0]⟩
    have hmem1 : w1 ∈ wireList.filter (fun w => w.dst.gateId = g.id) :=
      List.mem_filter.mpr ⟨hw1, by simp [hd1]⟩
    have hlen := two_le_length_of_mem hmem0 hmem1 hne
    have hn : numInputs lib g = some 2 := by simp [numInputs, hty, baseInputs]
    have hi : g.type ≠ GType.INPUT := by simp [hty]
    have hnu : ¬(g.type ≠ GType.OUTPUT ∧
        (wireList.filter (fun w => w.dst.gateId = g.id)).length < 2) := by
      intro hcon
      omega
    have hstep := mapO_fix hfix g hg
    rw [stepGate_formula hi hn hnu] at hstep
    have hval := value_eq_of_update_eq (Option.some.inj hstep)
    have hr : resolvedInputs R (wireList.filter (fun w => w.dst.gateId = g.id)) 2 =
        [sourceValue R w0, sourceValue R w1] := by
      simp only [resolvedInputs]
      rw [show List.range 2 = [0, 1] by decide]
      simp only [List.map_cons, List.map_nil,
        resolve_wired hfan hw0 hd0, resolve_wired hfan hw1 hd1]
    rw [hval, hr, hty]
    simp [gateFormula]
  · intro g hg hty w0 hw0 w1 hw1 hd0 hd1
    have hne : w0 ≠ w1 := by
      intro he
      rw [he, hd1] at hd0
      have := congrArg Endpoint.portIndex hd0
      simp at this
    have hmem0 : w0 ∈ wireList.filter (fun w => w.dst.gateId = g.id) :=
      List.mem_filter.mpr ⟨hw0, by simp [hd0]⟩
    have hmem1 : w1 ∈ wireList.filter (fun w => w.dst.gateId = g.id) :=
      List.mem_filter.mpr ⟨hw1, by simp [hd1]⟩
    have hlen := two_le_length_of_mem hmem0 hmem1 hne
    have hn : numInputs lib g = some 2 := by simp [numInputs, hty, baseInputs]
    have hi : g.type ≠ GType.INPUT := by simp [hty]
    have hnu : ¬(g.type ≠ GType.OUTPUT ∧
        (wireList.filter (fun w => w.dst.gateId = g.id)).length < 2) := by
      intro hcon
      omega
    have hstep := mapO_fix hfix g hg
    rw [stepGate_formula hi hn hnu] at hstep
    have hval := value_eq_of_update_eq (Option.some.inj hstep)
    have hr : resolvedInputs R (wireList.filter (fun w => w.dst.gateId = g.id)) 2 =
        [sourceValue R w0, sourceValue R w1] := by
      simp only [resolvedInputs]
      rw [show List.range 2 = [0, 1] by decide]
      simp only [List.map_cons, List.map_nil,
        resolve_wired hfan hw0 hd0, resolve_wired hfan hw1 hd1]
    rw [hval, hr, hty]
    simp [gateFormula]
  · intro g hg hty w0 hw0 hd0
    have hmem0 : w0 ∈ wireList.filter (fun w => w.dst.gateId = g.id) :=
      List.mem_filter.mpr ⟨hw0, by simp [hd0]⟩
    have hlen := List.length_pos_of_mem hmem0
    have hn : numInputs lib g = some 1 := by simp [numInputs, hty, baseInputs]
    have hi : g.type ≠ GType.INPUT := by simp [hty]
    have hnu : ¬(g.type ≠ GType.OUTPUT ∧
        (wireList.filter (fun w => w.dst.gateId = g.id)).length < 1) := by
      intro hcon
      omega
    have hstep := mapO_fix hfix g hg
    rw [stepGate_formula hi hn hnu] at hstep
    have hval := value_eq_of_update_eq (Option.some.inj hstep)
    have hr : resolvedInputs R (wireList.filter (fun w => w.dst.gateId = g.id)) 1 =
        [sourceValue R w0] := by
      simp only [resolvedInputs]
      rw [show List.range 1 = [0] by decide]
      simp only [List.map_cons, List.map_nil, resolve_wired hfan hw0 hd0]
    rw [hval, hr, hty]
    simp [gateFormula]
  · intro g hg hty w0 hw0 hd0
    have hn : numInputs lib g = some 1 := by simp [numInputs, hty, baseInputs]
    have hi : g.type ≠ GType.INPUT := by simp [hty]
    have hnu : ¬(g.type ≠ GType.OUTPUT ∧
        (wireList.filter (fun w => w.dst.gateId = g.id)).length < 1) := by
      intro hcon
      exact hcon.1 hty
    have hstep := mapO_fix hfix g hg
    rw [stepGate_formula hi hn hnu] at hstep
    have hval := value_eq_of_update_eq (Option.some.inj hstep)
    have hr : resolvedInputs R (wireList.filter (fun w => w.dst.gateId = g.id)) 1 =
        [sourceValue R w0] := by
      simp only [resolvedInputs]
      rw [show List.range 1 = [0] by decide]
      simp only [List.map_cons, List.map_nil, resolve_wired hfan hw0 hd0]
    rw [hval, hr, hty]
    simp [gateFormula]
  · intro g hg hty hnone
    have hn : numInputs lib g = some 1 := by simp [numInputs, hty, baseInputs]
    have hi : g.type ≠ GType.INPUT := by simp [hty]
    have hnu : ¬(g.type ≠ GType.OUTPUT ∧
        (wireList.filter (fun w => w.dst.gateId = g.id)).length < 1) := by
      intro hcon
      exact hcon.1 hty
    have hstep := mapO_fix hfix g hg
    rw [stepGate_formula hi hn hnu] at hstep
    have hval := value_eq_of_update_eq (Option.some.inj hstep)
    have hfind : (wireList.filter (fun w => w.dst.gateId = g.id)).find?
        (fun w => w.dst.portIndex = 0) = none := by
      apply List.find?_eq_none.mpr
      intro x hx hpx
      have hx1 : x.dst.gateId = g.id := by
        have := (List.mem_filter.mp hx).2
        simpa using this
      have hx2 : x.dst.portIndex = 0 := by simpa using hpx
      apply hnone x (List.mem_filter.mp hx).1
      calc x.dst = { gateId := x.dst.gateId, portIndex := x.dst.portIndex } := rfl
        _ = { gateId := g.id, portIndex := 0 } := by rw [hx1, hx2]
    have hr : resolvedInputs R (wireList.filter (fun w => w.dst.gateId = g.id)) 1 =
        [false] := by
      simp only [resolvedInputs]
      rw [show List.range 1 = [0] by decide]
      simp only [List.map_cons, List.map_nil, hfind]
    rw [hval, hr, hty]
    simp [gateFormula]

/-- C1 witness: the AND conjunct of `c1_fixpoint_truth_tables` applied
to the concrete converged state `c1wState`, whose AND gate `x` is wired
from both INPUTs. -/
theorem c1_witness :
    ({ id := "x", type := GType.AND, value := true } : Gate).value =
      (sourceValue c1wState
          { src := { gateId := "p", portIndex := 0 }, dst := { gateId := "x", portIndex := 0 } } &&
       sourceValue c1wState
          { src := { gateId := "q", portIndex := 0 }, dst := { gateId := "x", portIndex := 1 } }) :=
  (c1_fixpoint_truth_tables [] c1wWires c1wState (by decide) (by decide)).1
    { id := "x", type := GType.AND, value := true } (by decide) rfl
    { src := { gateId := "p", portIndex := 0 }, dst := { gateId := "x", portIndex := 0 } }
    (by decide)
    { src := { gateId := "q", portIndex := 0 }, dst := { gateId := "x", portIndex := 1 } }
    (by decide) rfl rfl

/-- C2: in any circuit evaluation that returns, every AND, OR or NOT
gate with fewer incoming wires than its declared arity (AND/OR: 2,
NOT: 1) has its value forced to false, regardless of the values on the
wired inputs. -/
theorem c2_underwired_forced_false (lib : Library) (c : Circuit) (R : List Gate) (g : Gate)
    (hev : evaluate lib c = some R) (hg : g ∈ R)
    (hty : g.type = GType.AND ∨ g.type = GType.OR ∨ g.type = GType.NOT)
    (hw : (c.wires.filter (fun w => w.dst.gateId = g.id)).length <
      (baseInputs g.type).getD 0) :
    g.value = false := by
  rcases hty with h | h | h
  · have hn : numInputs lib g = some 2 := by simp [numInputs, h, baseInputs]
    have hw2 : (c.wires.filter (fun w => w.dst.gateId = g.id)).length < 2 := by
      simpa [h, baseInputs] using hw
    exact eval_underwired_false hev hg (by simp [h]) (by simp [h]) hn hw2
  · have hn : numInputs lib g = some 2 := by simp [numInputs, h, baseInputs]
    have hw2 : (c.wires.filter (fun w => w.dst.gateId = g.id)).length < 2 := by
      simpa [h, baseInputs] using hw
    exact eval_underwired_false hev hg (by simp [h]) (by simp [h]) hn hw2
  · have hn : numInputs lib g = some 1 := by simp [numInputs, h, baseInputs]
    have hw1 : (c.wires.filter (fun w => w.dst.gateId = g.id)).length < 1 := by
      simpa [h, baseInputs] using hw
    exact eval_underwired_false hev hg (by simp [h]) (by simp [h]) hn hw1

/-- C2 witness: the AND gate of `c2wCircuit` has only port 0 wired (from
an INPUT that is on) and evaluates to false although its stored value
was true. -/
theorem c2_witness :
    ({ id := "x", type := GType.AND, value := false } : Gate).value = false :=
  c2_underwired_forced_false [] c2wCircuit
    [{ id := "p", type := GType.INPUT, value := true },
     { id := "x", type := GType.AND, value := false }]
    { id := "x", type := GType.AND, value := false }
    (by decide) (by decide) (Or.inl rfl) (by decide)

/-- C3 counterexample: a NOT gate with no incoming wire evaluates to
FALSE (the under-connection rule preempts the negation formula), not to
true as the claim states. -/
theorem c3_counterexample :
    evaluate [] c3circuit = some [{ c3gate with value := false }] ∧
    evaluate [] c3circuit ≠ some [{ c3gate with value := true }] := by decide

/-- C3 (amended): a NOT gate with no incoming wire evaluates to false —
the under-connection priority rule (fewer incoming wires than arity 1)
forces it inactive before the negation formula is consulted; the
formula's unconnected-reads-false-so-output-true path is unreachable. -/
theorem c3_amended_unconnected_not_false (lib : Library) (c : Circuit) (R : List Gate)
    (g : Gate) (hev : evaluate lib c = some R) (hg : g ∈ R) (hty : g.type = GType.NOT)
    (hnw : ∀ w ∈ c.wires, w.dst.gateId ≠ g.id) :
    g.value = false := by
  have hn : numInputs lib g = some 1 := by simp [numInputs, hty, baseInputs]
  have hfil : c.wires.filter (fun w => w.dst.gateId = g.id) = [] := by
    apply List.filter_eq_nil_iff.mpr
    intro w hw
    simpa using hnw w hw
  have hw1 : (c.wires.filter (fun w => w.dst.gateId = g.id)).length < 1 := by
    rw [hfil]
    simp
  exact eval_underwired_false hev hg (by simp [hty]) (by simp [hty]) hn hw1

/-- C3 witness: the amended statement applied to the lone unconnected
NOT gate of `c3circuit`. -/
theorem c3_witness : ({ c3gate with value := false } : Gate).value = false :=
  c3_amended_unconnected_not_false [] c3circuit [{ c3gate with value := false }]
    { c3gate with value := false } (by decide) (by decide) rfl (by simp [c3circuit])

/-- C9: in any circuit evaluation that returns, every COMPOSITE (CUSTOM)
gate's scalar `value` field is false: the flat engine has no value
formula for the CUSTOM kind and its fall-through (or the under-wiring
rule) assigns false on every pass, so a composite's observable signal is
carried only by its `outputValues`. -/
theorem c9_composite_value_false (lib : Library) (c : Circuit) (R : List Gate) (g : Gate)
    (hev : evaluate lib c = some R) (hg : g ∈ R) (hty : g.type = GType.CUSTOM) :
    g.value = false := by
  obtain ⟨gs₀, hsp⟩ := evaluate_pass hev
  obtain ⟨g₀, hg₀, hstep⟩ := mapO_eq_some_mem hsp g hg
  obtain ⟨-, htype, -, -, -⟩ := stepGate_fields hstep
  exact stepGate_custom_value (htype.symm.trans hty) hstep

/-- C9 witness: in the evaluated NAND-instance circuit the composite
gate `G` carries its signal in `outputValues` (here `[true]`) while its
scalar `value` is false. -/
theorem c9_witness :
    ({ id := "G", type := GType.CUSTOM, value := false, customGateName := some "NAND",
       inputValues := some [false, false], outputValues := some [true] } : Gate).value =
      false :=
  c9_composite_value_false nandLib (nandCirc false false)
    [{ id := "A", type := GType.INPUT, value := false },
     { id := "B", type := GType.INPUT, value := false },
     { id := "G", type := GType.CUSTOM, value := false, customGateName := some "NAND",
       inputValues := some [false, false], outputValues := some [true] }]
    { id := "G", type := GType.CUSTOM, value := false, customGateName := some "NAND",
      inputValues := some [false, false], outputValues := some [true] }
    (by decide) (by decide) rfl

/-- C4 counterexample: the claim's "never throwing" fails. On a circuit
that contains the claim's cyclic NOT together with a CUSTOM gate whose
template is absent, evaluation aborts with a TypeError
(`GATE_DIMENSIONS['CUSTOM'].inputs`), modelled as `none`, instead of
returning a boolean for every gate. -/
theorem c4_counterexample : evaluate [] c4badCircuit = none := by decide

/-- C4 (amended): for every circuit whose CUSTOM gates all reference
templates present in the library, and whose library's templates contain
only CUSTOM inner gates with present templates, evaluation terminates
within the fixed budgets and returns a value for every gate (a snapshot
of the same length), never failing. -/
theorem c4_amended_total (lib : Library) (c : Circuit)
    (h1 : TemplatesOK lib c.gates) (h2 : LibOK lib) :
    ∃ R, evaluate lib c = some R ∧ R.length = c.gates.length := by
  obtain ⟨R, hR, hlen, -⟩ := outerLoop_some c.wires h2 outerCap h1
  exact ⟨R, hR, hlen⟩

/-- C4 witness: the NOT gate wired output-to-own-input returns a boolean
snapshot within the budgets. -/
theorem c4_witness : ∃ R, evaluate [] c4cycCircuit = some R ∧ R.length = 1 :=
  c4_amended_total [] c4cycCircuit (by decide) (by decide)

/-- C5 counterexample: idempotence fails on a feedback-free circuit with
unchanged stimuli. In `staleCircuit` the final round's engine pass
lowers the NOT gate after the sweep has already sampled it, the loop
stops anyway, and re-evaluating the returned snapshot changes the
composite's cached port values. -/
theorem c5_counterexample :
    (evaluate staleLib staleCircuit).bind
        (fun R => evaluate staleLib { gates := R, wires := staleCircuit.wires }) ≠
      evaluate staleLib staleCircuit := by decide

/-- C5 (amended): idempotence holds for evaluations that reach a joint
fixpoint: if evaluating `c` yields `R` on which a further expander sweep
reports no change and the flat engine pass leaves every gate unchanged,
then evaluating the returned snapshot returns it unchanged. -/
theorem c5_amended_idempotent_of_converged (lib : Library) (c : Circuit) (R : List Gate)
    (h1 : evaluate lib c = some R)
    (h2 : sweepAll lib c.wires R = some (R, false))
    (h3 : stepPass lib c.wires R = some R) :
    evaluate lib { gates := R, wires := c.wires } = evaluate lib c := by
  rw [h1]
  show outerLoop lib c.wires outerCap R = some R
  rw [show outerCap = 9 + 1 from rfl, outerLoop_succ]
  simp only [h2]
  have hrs : runSimulation lib R c.wires = some R := by
    show runSimAux lib c.wires innerCap R = some R
    rw [show innerCap = 49 + 1 from rfl, runSimAux_succ]
    simp only [h3]
    simp
  simp only [hrs]
  rw [if_neg (by simp)]

/-- C5 witness: an INPUT driving a NOT converges, and evaluating the
converged snapshot reproduces it. -/
theorem c5_witness :
    evaluate [] { gates := c5wResult, wires := c5wCircuit.wires } = evaluate [] c5wCircuit :=
  c5_amended_idempotent_of_converged [] c5wCircuit c5wResult
    (by decide) (by decide) (by decide)

/-- C6 counterexample: a COMPOSITE gate whose template is absent does
not become inert with zeroed `outputValues` — evaluation of any circuit
containing it throws (`none` models the TypeError), so no snapshot with
`outputValues` all false is returned at all. -/
theorem c6_counterexample : evaluate [] c6circuit = none := by decide

/-- C6 (amended): a COMPOSITE gate whose template is absent is left
completely untouched by the expander sweep — both its `inputValues` and
its `outputValues` keep their last-known values, nothing is zeroed —
and the subsequent flat engine pass fails on such a gate, so evaluation
of any circuit containing it returns no snapshot (a thrown TypeError). -/
theorem c6_amended_missing_template (lib : Library) (g : Gate)
    (hty : g.type = GType.CUSTOM)
    (hmiss : g.customGateName.bind (lookupTemplate lib) = none) :
    (∀ (wireList : List Wire) (tempGates : List Gate),
        sweepGate lib wireList tempGates g = some (g, false)) ∧
    (∀ c : Circuit, g ∈ c.gates → evaluate lib c = none) := by
  have hsg : ∀ (wl : List Wire) (tg : List Gate),
      sweepGate lib wl tg g = some (g, false) := by
    intro wl tg
    have hcc : ¬ g.type ≠ GType.CUSTOM := fun hk => hk hty
    simp only [sweepGate, if_neg hcc, hmiss]
  refine ⟨hsg, ?_⟩
  intro c hgm
  have hnone : ∀ rs : List Gate, stepGate lib c.wires rs g = none := by
    intro rs
    have hi : ¬ g.type = GType.INPUT := by simp [hty]
    have hn : numInputs lib g = none := by simp [numInputs, hty, hmiss]
    simp only [stepGate, if_neg hi, hn]
  show outerLoop lib c.wires outerCap c.gates = none
  rw [show outerCap = 9 + 1 from rfl, outerLoop_succ]
  cases hsw : sweepAll lib c.wires c.gates with
  | none => simp only [hsw]
  | some pr =>
    obtain ⟨gs', ch⟩ := pr
    simp only [hsw]
    have hmm : g ∈ gs' := by
      simp only [sweepAll] at hsw
      cases hm : mapO c.gates (sweepGate lib c.wires c.gates) with
      | none => simp only [hm] at hsw; cases hsw
      | some l =>
        simp only [hm, Option.some.injEq, Prod.mk.injEq] at hsw
        obtain ⟨h1, -⟩ := hsw
        have hmem : (g, false) ∈ l := mapO_mem_some hm hgm (hsg c.wires c.gates)
        rw [← h1]
        exact List.mem_map.mpr ⟨(g, false), hmem, rfl⟩
    have hrs : runSimulation lib gs' c.wires = none := by
      show runSimAux lib c.wires innerCap gs' = none
      rw [show innerCap = 49 + 1 from rfl, runSimAux_succ]
      have hpass : stepPass lib c.wires gs' = none := mapO_none_of_mem hmm (hnone gs')
      simp only [hpass]
    simp only [hrs]

/-- C6 witness: the amended statement at the concrete missing-template
gate `c6gate`: the sweep freezes it entirely and evaluation fails. -/
theorem c6_witness :
    sweepGate [] [] [] c6gate = some (c6gate, false) ∧ evaluate [] c6circuit = none :=
  ⟨(c6_amended_missing_template [] c6gate rfl rfl).1 [] [],
   (c6_amended_missing_template [] c6gate rfl rfl).2 c6circuit (by decide)⟩

/-- C7: instantiating the composite template "NAND" (2 INPUTs → AND →
NOT → OUTPUT) and driving its two input ports with (true,true) yields
output false, while (true,false), (false,true) and (false,false) each
yield output true. -/
theorem c7_nand_truth_table :
    outputOf (evaluate nandLib (nandCirc true true)) "G" = some [false] ∧
    outputOf (evaluate nandLib (nandCirc true false)) "G" = some [true] ∧
    outputOf (evaluate nandLib (nandCirc false true)) "G" = some [true] ∧
    outputOf (evaluate nandLib (nandCirc false false)) "G" = some [true] := by decide

/-- C8 counterexample: the loop's stopping condition is not "neither
step changed anything, by full structural equality between rounds". On
`staleCircuit`, evaluation stops after a single round (a fuel of 2
already yields the `outerCap` result), yet running the loop again on the
returned snapshot still changes it — the final round's engine pass did
change the gate collection, and the 10-round cap was far from
exhausted. -/
theorem c8_counterexample :
    outerLoop staleLib staleWires 2 staleGates =
      outerLoop staleLib staleWires outerCap staleGates ∧
    (evaluate staleLib staleCircuit).bind (outerLoop staleLib staleWires outerCap) ≠
      evaluate staleLib staleCircuit := by decide

/-- C8 (amended): each round of the outer loop is one expander sweep
followed by one flat engine pass; the loop continues only while the
sweep changed some composite gate's `inputValues` or `outputValues`
(the engine pass's changes are not consulted), stopping otherwise, and
stops unconditionally once the 10-round cap is spent. -/
theorem c8_amended_loop_shape (lib : Library) (wireList : List Wire) :
    (∀ (fuel : Nat) (gs gs' gs'' : List Gate),
        sweepAll lib wireList gs = some (gs', false) →
        runSimulation lib gs' wireList = some gs'' →
        outerLoop lib wireList (fuel + 1) gs = some gs'') ∧
    (∀ (fuel : Nat) (gs gs' gs'' : List Gate),
        sweepAll lib wireList gs = some (gs', true) →
        runSimulation lib gs' wireList = some gs'' →
        outerLoop lib wireList (fuel + 2) gs = outerLoop lib wireList (fuel + 1) gs'') ∧
    (∀ (gs gs' gs'' : List Gate) (ch : Bool),
        sweepAll lib wireList gs = some (gs', ch) →
        runSimulation lib gs' wireList = some gs'' →
        outerLoop lib wireList 1 gs = some gs'') := by
  refine ⟨?_, ?_, ?_⟩
  · intro fuel gs gs' gs'' hsw hrs
    rw [outerLoop_succ]
    simp only [hsw, hrs]
    rw [if_neg (by simp)]
  · intro fuel gs gs' gs'' hsw hrs
    rw [outerLoop_succ]
    simp only [hsw, hrs]
    rw [if_pos (And.intro trivial (Nat.succ_ne_zero fuel))]
  · intro gs gs' gs'' ch hsw hrs
    rw [show (1 : Nat) = 0 + 1 from rfl, outerLoop_succ]
    simp only [hsw, hrs]
    rw [if_neg (by simp)]

/-- C8 witness: the first conjunct applied to a one-gate stimulus-only
circuit whose sweep reports no change. -/
theorem c8_witness : outerLoop [] [] 10 c8wGates = some c8wGates :=
  (c8_amended_loop_shape [] []).1 9 c8wGates c8wGates c8wGates (by decide) (by decide)

/-- C10 counterexample: a circuit whose only wire references the absent
source gate id "ghost" still makes evaluation fail (`none`, the
TypeError of its missing-template CUSTOM destination), so evaluation is
not total on every circuit with dangling source ids. -/
theorem c10_counterexample : evaluate [] c10badCircuit = none := by decide

/-- C10 (amended): provided every CUSTOM gate of the circuit and of the
library's templates references a present template, evaluation returns
normally even when wires reference source gate ids absent from the gate
list, and any wire whose source gate is missing resolves to false at its
destination input. -/
theorem c10_amended_total_dangling_false (lib : Library) (c : Circuit)
    (h1 : TemplatesOK lib c.gates) (h2 : LibOK lib) :
    (∃ R, evaluate lib c = some R) ∧
    (∀ (gs : List Gate) (w : Wire), (∀ fg ∈ gs, fg.id ≠ w.src.gateId) →
      sourceValue gs w = false) := by
  constructor
  · obtain ⟨R, hR, -, -⟩ := outerLoop_some c.wires h2 outerCap h1
    exact ⟨R, hR⟩
  · intro gs w hno
    unfold sourceValue
    have hfind : gs.find? (fun fg => fg.id = w.src.gateId) = none := by
      apply List.find?_eq_none.mpr
      intro x hx
      simpa using hno x hx
    simp only [hfind]

/-- C10 witness: the amended statement at the concrete circuit whose
OUTPUT is driven only by the dangling `ghostWire`. -/
theorem c10_witness :
    (∃ R, evaluate [] c10wCircuit = some R) ∧ sourceValue [] ghostWire = false :=
  ⟨(c10_amended_total_dangling_false [] c10wCircuit (by decide) (by decide)).1,
   (c10_amended_total_dangling_false [] c10wCircuit (by decide) (by decide)).2 [] ghostWire
     (by simp)⟩

end LogicSim
